import Mathlib

/-!
Verification of the core extraction engine of `cmm_measurement_parser.py`
(Zeiss CMM report parser).

The source operates on Python strings with `re` patterns; we embed each
line as a `List Char` and translate every regular expression used by the
source into an explicit, executable matcher that follows the regex's
backtracking semantics (all the patterns used by the source are
deterministic in the sense that at each choice point at most one
alternative can succeed, which the matchers below exploit; where a
pattern does backtrack -- the `.*?点数` search, the unanchored stats
search, the `\bX` search -- the matchers scan positions left to right
exactly as the regex engine does).

Numbers are embedded as `ℚ`: every numeric token in the report is a
(sign +) decimal-digit/dot string, so Python's binary floats agree with
the rational value for the comparisons and record fields modelled here;
`numpy`/`pandas` `.round(n)` is embedded as round-half-even at `n`
decimal places.  Python `float(...)` applied to a token drawn from the
character classes `[-\d.]` / `[\d.]` raises `ValueError` on malformed
tokens such as `1.2.3`; this is embedded as `Except Unit` (an `.error`
value models the exception escaping the parse call).

Python `\d` matches Unicode decimal digits; the report format uses ASCII
and full-width digits, which is what `isPyDigit` covers.  Python `\s`
and `str.strip` cover Unicode whitespace; the report uses ASCII
whitespace and the ideographic space U+3000, covered by `isPySpace`.

Out of scope (pure presentation / I/O glue, unclaimed): column renaming
to Japanese labels, column ordering, Excel export, verbose printing, and
the standard-deviation summary columns (irrational, not claimed).
-/

namespace CMM

abbrev Line := List Char

/-- ASCII or full-width decimal digit (Python `\d` on the characters
occurring in this report format). -/
def isPyDigit (c : Char) : Bool := c.isDigit || ('０' ≤ c && c ≤ '９')

/-- Numeric value of an ASCII or full-width digit. -/
def digitVal (c : Char) : ℕ :=
  if c.isDigit then c.toNat - '0'.toNat else c.toNat - '０'.toNat

/-- Value of a digit string (Python `int(...)` on a `\d+` capture). -/
def digitsToNat (l : List Char) : ℕ := l.foldl (fun a c => 10 * a + digitVal c) 0

/-- Python whitespace (`\s`, `str.strip`) restricted to the characters
occurring in this report format: ASCII whitespace and U+3000. -/
def isPySpace (c : Char) : Bool := c.isWhitespace || c = '　'

/-- A character of the separator class `[=_-]`. -/
def isSepChar (c : Char) : Bool := c = '=' || c = '_' || c = '-'

/-- A character of the numeric-token class `[-\d.]`. -/
def isNumChar (c : Char) : Bool := isPyDigit c || c = '.' || c = '-'

/-- A character of the unsigned numeric-token class `[\d.]`. -/
def isUNumChar (c : Char) : Bool := isPyDigit c || c = '.'

/-- Python `re` word character (`\w`) restricted to the character
repertoire of this report format: ASCII alphanumerics, underscore, and
Japanese/full-width letters and digits (CJK ideographs, kana,
half-width katakana, full-width alphanumerics). -/
def isWordChar (c : Char) : Bool :=
  c.isAlphanum || c = '_' ||
  (0x3040 ≤ c.toNat && c.toNat ≤ 0x30FF) ||
  (0x4E00 ≤ c.toNat && c.toNat ≤ 0x9FFF) ||
  (0xFF10 ≤ c.toNat && c.toNat ≤ 0xFF19) ||
  (0xFF21 ≤ c.toNat && c.toNat ≤ 0xFF3A) ||
  (0xFF41 ≤ c.toNat && c.toNat ≤ 0xFF5A) ||
  (0xFF66 ≤ c.toNat && c.toNat ≤ 0xFF9F)

/-- Python `float(tok)` for a token drawn from the class `[-\d.]`:
optional leading minus, then digits with at most one dot and at least
one digit.  `none` models `float` raising `ValueError`. -/
def pyFloatCore (s : List Char) : Option ℚ :=
  let ip := s.takeWhile isPyDigit
  let rest := s.drop ip.length
  match rest with
  | [] => if ip.isEmpty then none else some (digitsToNat ip : ℚ)
  | '.' :: frac =>
    if frac.all isPyDigit && !(ip.isEmpty && frac.isEmpty) then
      some ((digitsToNat ip : ℚ) + (digitsToNat frac : ℚ) / (10 : ℚ) ^ frac.length)
    else none
  | _ => none

def pyFloat (s : List Char) : Option ℚ :=
  match s with
  | '-' :: rest => (pyFloatCore rest).map (fun q => -q)
  | _ => pyFloatCore s

/-- Python `str.strip()`. -/
def pyStrip (l : Line) : Line :=
  ((l.dropWhile isPySpace).reverse.dropWhile isPySpace).reverse

/-- `sub` occurs as a contiguous substring of `l` (Python `in` /
an unanchored alternation of literals). -/
def containsSub (sub : Line) : Line → Bool
  | [] => sub.isEmpty
  | l@(_ :: rest) => sub.isPrefixOf l || containsSub sub rest

/-- The boilerplate substrings of `header_pattern` in
`parse_lines_to_dataframe`. -/
def headerSubs : List Line :=
  [("CARL ZEISS").toList, ("CALYPSO").toList, ("測定ﾌﾟﾗﾝ").toList,
   ("ACCURA").toList, ("名前").toList, ("説明").toList, ("実測値").toList,
   ("基準値").toList, ("上許容差").toList, ("下許容誤差").toList,
   ("ﾋｽﾄｸﾞﾗﾑ").toList]

/-- The larger boilerplate list of `header_pattern` in
`parse_xy_coordinates`. -/
def headerSubsXY : List Line :=
  headerSubs ++
  [("ｺﾝﾊﾟｸﾄﾌﾟﾘﾝﾄｱｳﾄ").toList, ("ｵﾍﾟﾚｰﾀ").toList, ("日付").toList,
   ("ﾊﾟｰﾄNo").toList, ("Master").toList, ("2025年").toList,
   ("20190821").toList, ("支持板").toList]

/-- `re.search(header_pattern, line)`: the line contains one of the
boilerplate substrings. -/
def isHeaderNoise (subs : List Line) (l : Line) : Bool :=
  subs.any (fun h => containsSub h l)

/-- `re.search(r'^[=_-]{10,}$', line)`: at least ten characters, all
drawn from `=`, `_`, `-`. -/
def isSeparator (l : Line) : Bool := 10 ≤ l.length && l.all isSepChar

/-- Step 1 of `parse_lines_to_dataframe`: strip each line, drop blanks
and page-header lines, split into datasets at separator lines, dropping
empty datasets. -/
def splitDatasets : List Line → List Line → List (List Line)
  | [], cur => if cur.isEmpty then [] else [cur]
  | l :: rest, cur =>
    let s := pyStrip l
    if s.isEmpty then splitDatasets rest cur
    else if isHeaderNoise headerSubs s then splitDatasets rest cur
    else if isSeparator s then
      if cur.isEmpty then splitDatasets rest [] else cur :: splitDatasets rest []
    else splitDatasets rest (cur ++ [s])

def datasets (lines : List Line) : List (List Line) := splitDatasets lines []

/-! ### Line-shape matchers (the source's regular expressions) -/

/-- The closed set of measurement-type labels in the element patterns'
alternation, in source order. -/
inductive MType where
  | circleLSq | planeLSq | lineLSq | basicCoord | line3d | point | dist2d
deriving DecidableEq, Repr

def mtypeLabel : MType → Line
  | .circleLSq => ("円(最小二乗法)").toList
  | .planeLSq => ("平面(最小二乗法)").toList
  | .lineLSq => ("直線(最小二乗法)").toList
  | .basicCoord => ("基本座標系").toList
  | .line3d => ("3次元直線").toList
  | .point => ("点").toList
  | .dist2d => ("2D距離").toList

def mtypeAlternatives : List MType :=
  [.circleLSq, .planeLSq, .lineLSq, .basicCoord, .line3d, .point, .dist2d]

/-- If `lab` is a literal prefix of `l`, consume it. -/
def tryLit (lab l : Line) : Option Line :=
  if lab.isPrefixOf l then some (l.drop lab.length) else none

/-- Match the measurement-type alternation at the head of `l`
(the alternatives have pairwise distinct first characters, so at most
one can match; alternatives are tried in source order). -/
def matchMType (l : Line) : Option (MType × Line) :=
  mtypeAlternatives.foldr
    (fun t acc => match tryLit (mtypeLabel t) l with
      | some rest => some (t, rest)
      | none => acc) none

/-- Side marker `(内側|外側)?` after optional whitespace; absence maps to
the source's `'N/A'`. -/
inductive Side where
  | inside | outside | na
deriving DecidableEq, Repr

def matchSide (l : Line) : Side :=
  let r := l.dropWhile isPySpace
  if ("内側").toList.isPrefixOf r then .inside
  else if ("外側").toList.isPrefixOf r then .outside
  else .na

structure ElementInfo where
  element_name : Line
  measurement_type : MType
  point_count : ℕ
  side : Side
deriving DecidableEq, Repr

/-- `点数\s*\((\d+)\)` matched at the head of `l`: the greedy `(\d+)`
takes the maximal digit run, which must be nonempty and followed by
`)`. -/
def matchTensuAt (l : Line) : Option (ℕ × Line) :=
  match tryLit (("点数").toList) l with
  | none => none
  | some r =>
    match r.dropWhile isPySpace with
    | '(' :: r2 =>
      let ds := r2.takeWhile isPyDigit
      if ds.isEmpty then none
      else
        match r2.drop ds.length with
        | ')' :: r3 => some (digitsToNat ds, r3)
        | _ => none
    | _ => none

/-- The `\s*.*?点数\s*\((\d+)\)` part: the lazy `.*?` makes the regex
engine succeed at the leftmost position where the rest matches. -/
def findTensu : Line → Option (ℕ × Line)
  | [] => none
  | l@(_ :: rest) =>
    match matchTensuAt l with
    | some x => some x
    | none => findTensu rest

/-- The full element pattern of `parse_lines_to_dataframe`
(`element_pattern`, source line 136):
`^([^\s]+)\s+(円\(最小二乗法\)|…|点|2D距離)\s*.*?点数\s*\((\d+)\)\s*(内側|外側)?`. -/
def matchElementFull (l : Line) : Option ElementInfo :=
  let tag := l.takeWhile (fun c => !isPySpace c)
  if tag.isEmpty then none
  else
    let rest := l.drop tag.length
    let sp := rest.takeWhile isPySpace
    if sp.isEmpty then none
    else
      match matchMType (rest.drop sp.length) with
      | none => none
      | some (ty, rem) =>
        match findTensu rem with
        | none => none
        | some (cnt, rem2) =>
          some ⟨tag, ty, cnt, matchSide rem2⟩

/-- The fallback element pattern (`simple_element_pattern`, source line
151, also the XY extractor's `element_pattern`, source line 312):
`^([^\s]+)\s+(円\(最小二乗法\)|…|点|2D距離)`.  Point count defaults to 0
and side to `N/A`. -/
def matchElementSimple (l : Line) : Option ElementInfo :=
  let tag := l.takeWhile (fun c => !isPySpace c)
  if tag.isEmpty then none
  else
    let rest := l.drop tag.length
    let sp := rest.takeWhile isPySpace
    if sp.isEmpty then none
    else
      match matchMType (rest.drop sp.length) with
      | none => none
      | some (ty, _) => some ⟨tag, ty, 0, .na⟩

/-- Captured (unconverted) groups of the stats pattern. -/
structure StatsRaw where
  t_sdev : Line
  min_point : ℕ
  t_min : Line
  max_point : ℕ
  t_max : Line
  t_form : Line
deriving DecidableEq, Repr

/-- A greedy numeric token of class `cls` followed by mandatory
whitespace (`\s+`); returns the token and the rest after the
whitespace. -/
def tokThenSpace (cls : Char → Bool) (l : Line) : Option (Line × Line) :=
  let t := l.takeWhile cls
  if t.isEmpty then none
  else
    let r := l.drop t.length
    match r with
    | c :: _ => if isPySpace c then some (t, r.dropWhile isPySpace) else none
    | [] => none

/-- `Min=\((\d+)\)` / `Max=\((\d+)\)` style group: literal, digits,
closing paren; then `\s*` and a numeric token of class `cls` followed by
`\s+`. -/
def matchIndexedVal (lab : Line) (l : Line) : Option (ℕ × Line × Line) :=
  match tryLit lab l with
  | none => none
  | some r =>
    let ds := r.takeWhile isPyDigit
    if ds.isEmpty then none
    else
      match r.drop ds.length with
      | ')' :: r2 =>
        match tokThenSpace isNumChar (r2.dropWhile isPySpace) with
        | some (t, r3) => some (digitsToNat ds, t, r3)
        | none => none
      | _ => none

/-- The stats pattern (`stats_pattern`, source line 164) matched at the
head of `l`:
`S=\s*([\d.]+)\s+Min=\((\d+)\)\s*([-\d.]+)\s+Max=\((\d+)\)\s*([-\d.]+)\s+形状=\s*([\d.]+)`. -/
def matchStatsAt (l : Line) : Option StatsRaw :=
  match tryLit (("S=").toList) l with
  | none => none
  | some r =>
    match tokThenSpace isUNumChar (r.dropWhile isPySpace) with
    | none => none
    | some (sdev, r1) =>
      match matchIndexedVal (("Min=(").toList) r1 with
      | none => none
      | some (minp, tmin, r2) =>
        match matchIndexedVal (("Max=(").toList) r2 with
        | none => none
        | some (maxp, tmax, r3) =>
          match tryLit (("形状=").toList) r3 with
          | none => none
          | some r4 =>
            let tf := (r4.dropWhile isPySpace).takeWhile isUNumChar
            if tf.isEmpty then none
            else some ⟨sdev, minp, tmin, maxp, tmax, tf⟩

/-- `re.search` of the (unanchored) stats pattern: leftmost matching
position. -/
def findStats : Line → Option StatsRaw
  | [] => none
  | l@(_ :: rest) =>
    match matchStatsAt l with
    | some x => some x
    | none => findStats rest

/-- Coordinate-type letter `([XYZ]|D)`. -/
inductive CType where
  | X | Y | Z | D
deriving DecidableEq, Repr

def ctypeOfChar (c : Char) : Option CType :=
  if c = 'X' then some .X else if c = 'Y' then some .Y
  else if c = 'Z' then some .Z else if c = 'D' then some .D else none

/-- Captured (unconverted) groups of the named-coordinate pattern. -/
structure CoordRaw where
  cname : Line
  ctype : CType
  t_meas : Line
  t_exp : Line
  t_up : Line
  t_low : Line
  t_dev : Line
  histogram : Line
deriving DecidableEq, Repr

/-- Group 1 of the coordinate pattern:
`([XYZ]-値_[^\s]*|Y-値_[^\s]*|X-値_[^\s]*|\d+)` followed by `\s+`.
Both alternatives force the capture to be the whole maximal non-space
token. -/
def coordNameTok (tok : Line) : Bool :=
  (match tok with
   | c :: rest =>
     (c = 'X' || c = 'Y' || c = 'Z') && ("-値_").toList.isPrefixOf rest
   | [] => false) ||
  (!tok.isEmpty && tok.all isPyDigit)

/-- The named-coordinate pattern (`named_coord_pattern`, source line
181), anchored at the line head:
`^(group1)\s+([XYZ]|D)\s+([-\d.]+)\s+([-\d.]+)\s+([-\d.]+)\s+([-\d.]+)\s+([-\d.]+)\s*(.*)?`,
with the source's `.strip()` applied to the histogram capture. -/
def matchNamedCoord (l : Line) : Option CoordRaw :=
  let tok := l.takeWhile (fun c => !isPySpace c)
  if !coordNameTok tok then none
  else
    let r := l.drop tok.length
    let sp := r.takeWhile isPySpace
    if sp.isEmpty then none
    else
      match r.drop sp.length with
      | c :: r1 =>
        match ctypeOfChar c with
        | none => none
        | some ct =>
          match r1 with
          | c2 :: _ =>
            if !isPySpace c2 then none
            else
              match tokThenSpace isNumChar (r1.dropWhile isPySpace) with
              | none => none
              | some (t1, r2) =>
                match tokThenSpace isNumChar r2 with
                | none => none
                | some (t2, r3) =>
                  match tokThenSpace isNumChar r3 with
                  | none => none
                  | some (t3, r4) =>
                    match tokThenSpace isNumChar r4 with
                    | none => none
                    | some (t4, r5) =>
                      let t5 := r5.takeWhile isNumChar
                      if t5.isEmpty then none
                      else some ⟨tok, ct, t1, t2, t3, t4, t5,
                                 pyStrip (r5.drop t5.length)⟩
          | [] => none
      | [] => none

/-! ### Per-block scan (Step 2 of `parse_lines_to_dataframe`) -/

structure StatsInfo where
  std_dev : ℚ
  min_point : ℕ
  min_value : ℚ
  max_point : ℕ
  max_value : ℚ
  form_error : ℚ
deriving DecidableEq, Repr

/-- The `float(...)` conversions inside the stats branch; a malformed
token raises `ValueError` (modelled as `.error`). -/
def statsOfRaw (raw : StatsRaw) : Except Unit StatsInfo :=
  match pyFloat raw.t_sdev, pyFloat raw.t_min, pyFloat raw.t_max,
        pyFloat raw.t_form with
  | some sd, some mn, some mx, some fe =>
    .ok ⟨sd, raw.min_point, mn, raw.max_point, mx, fe⟩
  | _, _, _, _ => .error ()

/-- One extracted measurement record, before the derived columns; the
constant fields `data_type = 'named_coordinate_with_tolerance'` and
`has_colored_values = True` are the same for every record of this
extraction path and are left implicit. -/
structure BaseRecord where
  element_name : Line
  measurement_type : MType
  point_count : ℕ
  side : Side
  stats : Option StatsInfo
  coordinate_name : Line
  coordinate_type : CType
  measured_value : ℚ
  expected_value : ℚ
  upper_tolerance : ℚ
  lower_tolerance : ℚ
  calculated_deviation : ℚ
  histogram : Line
deriving DecidableEq, Repr

/-- The `float(...)` conversions inside the coordinate branch. -/
def recordOfRaw (info : ElementInfo) (st : Option StatsInfo) (raw : CoordRaw) :
    Except Unit BaseRecord :=
  match pyFloat raw.t_meas, pyFloat raw.t_exp, pyFloat raw.t_up,
        pyFloat raw.t_low, pyFloat raw.t_dev with
  | some v1, some v2, some v3, some v4, some v5 =>
    .ok ⟨info.element_name, info.measurement_type, info.point_count, info.side,
         st, raw.cname, raw.ctype, v1, v2, v3, v4, v5, raw.histogram⟩
  | _, _, _, _, _ => .error ()

/-- The running context of the per-block scan: `blue_tag`/`element_info`
(always set together) and `stats_info`. -/
structure BlockState where
  element : Option ElementInfo
  stats : Option StatsInfo
deriving DecidableEq, Repr

def BlockState.init : BlockState := ⟨none, none⟩

/-- The stats / coordinate part of the per-line dispatch (checked only
after both element patterns have failed). -/
def statsCoordStep (st : BlockState) (l : Line) :
    Except Unit (BlockState × Option BaseRecord) :=
  match findStats l with
  | some raw =>
    match statsOfRaw raw with
    | .ok si => .ok ({ st with stats := some si }, none)
    | .error e => .error e
  | none =>
    match st.element with
    | none => .ok (st, none)
    | some info =>
      match matchNamedCoord l with
      | none => .ok (st, none)
      | some raw =>
        match recordOfRaw info st.stats raw with
        | .ok r => .ok (st, some r)
        | .error e => .error e

/-- Processing of one line of a dataset (the body of the source's inner
`for line_idx, line in enumerate(dataset)` loop).  Pattern order is the
source's: full element pattern, then the simple element pattern (only
when no element is set yet and this is the first line of the block),
then the stats pattern, then the coordinate pattern (only when an
element is set). -/
def blockStep (st : BlockState) (idx : ℕ) (l : Line) :
    Except Unit (BlockState × Option BaseRecord) :=
  match matchElementFull l with
  | some info => .ok ({ st with element := some info }, none)
  | none =>
    if st.element.isNone && idx == 0 then
      match matchElementSimple l with
      | some info => .ok ({ st with element := some info }, none)
      | none => statsCoordStep st l
    else statsCoordStep st l

def processBlockAux (st : BlockState) (idx : ℕ) :
    List Line → Except Unit (List BaseRecord)
  | [] => .ok []
  | l :: rest =>
    match blockStep st idx l with
    | .error e => .error e
    | .ok (st', r?) =>
      match processBlockAux st' (idx + 1) rest with
      | .error e => .error e
      | .ok rs => .ok (r?.toList ++ rs)

def processBlock (block : List Line) : Except Unit (List BaseRecord) :=
  processBlockAux .init 0 block

def processDatasets : List (List Line) → Except Unit (List BaseRecord)
  | [] => .ok []
  | d :: ds =>
    match processBlock d with
    | .error e => .error e
    | .ok rs =>
      match processDatasets ds with
      | .error e => .error e
      | .ok rest => .ok (rs ++ rest)

/-! ### Derived metrics (source lines 211-225) -/

/-- Round-half-even to an integer (`numpy`/`pandas` rounding). -/
def roundHalfEven (q : ℚ) : ℤ :=
  let n := ⌊q⌋
  let f := q - n
  if f < 1 / 2 then n
  else if 1 / 2 < f then n + 1
  else if n % 2 = 0 then n else n + 1

/-- `.round(d)`: round-half-even at `d` decimal places. -/
def roundTo (d : ℕ) (q : ℚ) : ℚ := (roundHalfEven (q * 10 ^ d) : ℚ) / 10 ^ d

/-- The `within_tolerance` row lambda (source lines 211-215): `None`
when any of lower tolerance, upper tolerance, deviation is missing
(`pd.notna` fails), else the inclusive double comparison. -/
def within_tolerance (lower upper dev : Option ℚ) : Option Bool :=
  match lower, upper, dev with
  | some lo, some up, some d => some (decide (lo ≤ d ∧ d ≤ up))
  | _, _, _ => none

/-- The `status` column (source line 217):
`map({True: 'PASS', False: 'FAIL', None: 'N/A'})`. -/
inductive Status where
  | PASS | FAIL | NA
deriving DecidableEq, Repr

def statusOf : Option Bool → Status
  | some true => .PASS
  | some false => .FAIL
  | none => .NA

/-- The `tolerance_utilization` column (source lines 221-225):
`np.where(range != 0, (|dev| / (range/2) * 100).round(2), 0)`. -/
def tolerance_utilization (range dev : ℚ) : ℚ :=
  if range ≠ 0 then roundTo 2 (|dev| / (range / 2) * 100) else 0

structure DerivedRecord where
  base : BaseRecord
  within_tol : Option Bool
  status : Status
  tolerance_range : ℚ
  tolerance_util : ℚ
deriving DecidableEq, Repr

/-- The single derived-columns pass over the collected records. -/
def deriveRecord (b : BaseRecord) : DerivedRecord :=
  let wt := within_tolerance (some b.lower_tolerance) (some b.upper_tolerance)
    (some b.calculated_deviation)
  { base := b
    within_tol := wt
    status := statusOf wt
    tolerance_range := b.upper_tolerance - b.lower_tolerance
    tolerance_util := tolerance_utilization
      (b.upper_tolerance - b.lower_tolerance) b.calculated_deviation }

/-- `parse_lines_to_dataframe` (core): segmentation, per-block scan,
derived columns.  `.error` models a `ValueError` raised by a
`float(...)` conversion escaping the call; column renaming/selection is
a pure presentation transform and is not modelled. -/
def parse_lines_to_dataframe (lines : List Line) :
    Except Unit (List DerivedRecord) :=
  match processDatasets (datasets lines) with
  | .error e => .error e
  | .ok base => .ok (base.map deriveRecord)

/-! ### XY stream extractor (`parse_xy_coordinates`) -/

/-- Step 1 of `parse_xy_coordinates`: strip, drop blanks, drop
header/separator lines (the XY path's larger boilerplate list). -/
def cleanLinesXY (lines : List Line) : List Line :=
  lines.filterMap (fun l =>
    let s := pyStrip l
    if s.isEmpty then none
    else if isHeaderNoise headerSubsXY s || isSeparator s then none
    else some s)

/-- `re.search(r'^円\d+$', tag)`: the whole tag is `円` followed by one
or more digits. -/
def isCircleTag (tag : Line) : Bool :=
  match tag with
  | c :: rest => c = '円' && !rest.isEmpty && rest.all isPyDigit
  | [] => false

/-- `re.search(r'^ｄ-\d+$', tag)`: the whole tag is `ｄ-` followed by
one or more digits. -/
def isDTag (tag : Line) : Bool :=
  match tag with
  | c1 :: c2 :: rest => c1 = 'ｄ' && c2 = '-' && !rest.isEmpty && rest.all isPyDigit
  | _ => false

/-- The XY acceptance filter (source line 325). -/
def acceptTag (tag : Line) : Bool := isCircleTag tag || isDTag tag

/-- `re.search(r'\bX\s+([-\d.]+)', line)` (and the `Y` analogue):
leftmost occurrence of the target letter at a word boundary followed by
whitespace and a numeric token; returns the captured token. -/
def findCoordTok (target : Char) : Option Char → Line → Option Line
  | _, [] => none
  | prev, c :: rest =>
    if c = target && (match prev with | none => true | some p => !isWordChar p) then
      match rest with
      | c2 :: _ =>
        if isPySpace c2 then
          let t := (rest.dropWhile isPySpace).takeWhile isNumChar
          if t.isEmpty then findCoordTok target (some c) rest else some t
        else findCoordTok target (some c) rest
      | [] => none
    else findCoordTok target (some c) rest

/-- A completed XY element (`xy_records` entry, source lines 365-369);
the stored coordinates are already absolute values. -/
structure XYRec where
  element_name : Line
  x_coordinate : ℚ
  y_coordinate : ℚ
deriving DecidableEq, Repr

/-- The XY scanner's running state: the four mutable locals
`current_element`, `looking_for_x`, `looking_for_y`, `current_x`. -/
structure XYState where
  current_element : Option Line
  looking_for_x : Bool
  looking_for_y : Bool
  current_x : Option ℚ
deriving DecidableEq, Repr

def XYState.idle : XYState := ⟨none, false, false, none⟩

/-- The Y-coordinate branch of the XY scanner (source lines 358-380). -/
def xyYStep (s : XYState) (acc : List XYRec) (l : Line) :
    Except Unit (XYState × List XYRec) :=
  match s.current_element, s.current_x with
  | some name, some x =>
    if s.looking_for_y then
      match findCoordTok 'Y' none l with
      | some t =>
        match pyFloat t with
        | some y => .ok (.idle, acc ++ [⟨name, x, |y|⟩])
        | none => .error ()
      | none => .ok (s, acc)
    else .ok (s, acc)
  | _, _ => .ok (s, acc)

/-- One line of the XY scanner (the body of the source's
`for line_idx, line in enumerate(clean_lines)` loop, source lines
309-380): element pattern first (accepted tags restart the machine,
rejected tags leave it unchanged), then the X branch, then the Y
branch. -/
def xyStep (s : XYState) (acc : List XYRec) (l : Line) :
    Except Unit (XYState × List XYRec) :=
  match matchElementSimple l with
  | some info =>
    if acceptTag info.element_name then
      .ok (⟨some info.element_name, true, false, none⟩, acc)
    else .ok (s, acc)
  | none =>
    match s.current_element with
    | none => .ok (s, acc)
    | some _ =>
      if s.looking_for_x then
        match findCoordTok 'X' none l with
        | some t =>
          match pyFloat t with
          | some x =>
            .ok ({ s with looking_for_x := false, looking_for_y := true,
                          current_x := some |x| }, acc)
          | none => .error ()
        | none => xyYStep s acc l
      else xyYStep s acc l

def xyRun : XYState → List XYRec → List Line → Except Unit (List XYRec)
  | _, acc, [] => .ok acc
  | s, acc, l :: rest =>
    match xyStep s acc l with
    | .error e => .error e
    | .ok (s', acc') => xyRun s' acc' rest

/-- The completed-record stream of `parse_xy_coordinates`, before
post-processing. -/
def xyRecords (lines : List Line) : Except Unit (List XYRec) :=
  xyRun .idle [] (cleanLinesXY lines)

def circleMark : Line := ("円").toList

def dMark : Line := ("ｄ-").toList

/-- `re.search(r'円(\d+)', name)` style suffix capture: leftmost
occurrence of the marker followed by at least one digit; greedy digit
run. -/
def findMarkNum (mark : Line) : Line → Option ℕ
  | [] => none
  | l@(_ :: rest) =>
    match tryLit mark l with
    | some r =>
      let ds := r.takeWhile isPyDigit
      if ds.isEmpty then findMarkNum mark rest else some (digitsToNat ds)
    | none => findMarkNum mark rest

/-- The numerical sorting key (`extract_number`, source lines 398-405):
integer suffix after the family marker, defaulting to 0. -/
def extract_number (name : Line) : ℕ :=
  if containsSub circleMark name then (findMarkNum circleMark name).getD 0
  else if containsSub dMark name then (findMarkNum dMark name).getD 0
  else 0

/-- One output row of the reshaped XY data. -/
structure XYRow where
  element_name : Line
  coordinate_type : CType
  value : ℚ
deriving DecidableEq, Repr

/-- The two output rows of one completed record: X row then Y row,
sharing the tag, both using the generic `value` field. -/
def pairRows (r : XYRec) : List XYRow :=
  [⟨r.element_name, .X, r.x_coordinate⟩, ⟨r.element_name, .Y, r.y_coordinate⟩]

/-- The sort relation used by `sorted(..., key=extract_number)`. -/
def suffixLE (a b : XYRec) : Prop :=
  extract_number a.element_name ≤ extract_number b.element_name

instance : DecidableRel suffixLE := fun _ _ => Nat.decLe _ _

instance : IsTotal XYRec suffixLE := ⟨fun _ _ => Nat.le_total _ _⟩

instance : IsTrans XYRec suffixLE := ⟨fun _ _ _ => Nat.le_trans⟩

/-- `parse_xy_coordinates` (core): clean, scan, partition into the two
families by substring membership, sort each family by integer suffix
(Python's `sorted` is stable, as is `insertionSort` with this total
relation), circle family first, and reshape each record into its X row
followed by its Y row. -/
def parse_xy_coordinates (lines : List Line) : Except Unit (List XYRow) :=
  match xyRecords lines with
  | .error e => .error e
  | .ok recs =>
    let circles := recs.filter (fun r => containsSub circleMark r.element_name)
    let dGroup := recs.filter (fun r => containsSub dMark r.element_name)
    .ok ((List.insertionSort suffixLE circles).flatMap pairRows ++
         (List.insertionSort suffixLE dGroup).flatMap pairRows)

/-! ### Aggregation (`create_summary_by_element`)

The source groups by element name and aggregates with pandas.  Grouping
is order-independent (pandas sorts group keys; key order is not
claimed).  Every record of this extraction path carries a measured
value, so the `count` aggregate of the measured column is the group
size.  The sample-standard-deviation columns are irrational-valued and
not modelled (no claim touches them).  `.round(4)` is applied by the
source to every aggregated column, and `.round(1)` to the final pass
rate. -/

def minQ : List ℚ → ℚ
  | [] => 0
  | x :: xs => xs.foldl min x

def maxQ : List ℚ → ℚ
  | [] => 0
  | x :: xs => xs.foldl max x

structure SummaryRow where
  element_name : Line
  measurement_type : MType
  point_count : ℕ
  side : Side
  coordinate_count : ℚ
  avg_measured_value : ℚ
  avg_deviation : ℚ
  min_deviation : ℚ
  max_deviation : ℚ
  pass_count : ℚ
  avg_tolerance_util : ℚ
  pass_rate : ℚ
deriving DecidableEq, Repr

/-- One group's summary row: `first` of type/point-count/side, count and
mean of measured value, mean/min/max of deviation, sum of the boolean
within-tolerance flags (True = 1), mean utilization, and
`pass_rate = (pass_count / coordinate_count * 100).round(1)` computed
from the already-`.round(4)`-ed aggregates, exactly as the source
does. -/
def summaryRow (name : Line) : List DerivedRecord → SummaryRow
  | [] => ⟨name, .point, 0, .na, 0, 0, 0, 0, 0, 0, 0, 0⟩
  | g0 :: grest =>
    let g := g0 :: grest
    let cnt : ℚ := roundTo 4 ((g.length : ℕ) : ℚ)
    let passes : ℚ :=
      roundTo 4 (((g.countP (fun r => r.within_tol == some true)) : ℕ) : ℚ)
    let devs := g.map (fun r => r.base.calculated_deviation)
    { element_name := name
      measurement_type := g0.base.measurement_type
      point_count := g0.base.point_count
      side := g0.base.side
      coordinate_count := cnt
      avg_measured_value :=
        roundTo 4 ((g.map (fun r => r.base.measured_value)).sum / (g.length : ℚ))
      avg_deviation := roundTo 4 (devs.sum / (g.length : ℚ))
      min_deviation := roundTo 4 (minQ devs)
      max_deviation := roundTo 4 (maxQ devs)
      pass_count := passes
      avg_tolerance_util :=
        roundTo 4 ((g.map (fun r => r.tolerance_util)).sum / (g.length : ℚ))
      pass_rate := roundTo 1 (passes / cnt * 100) }

/-- The grouping itself: pandas `groupby(element_col)` collects, for
each distinct element name, the records carrying that name. -/
def groupOf (recs : List DerivedRecord) (name : Line) : List DerivedRecord :=
  recs.filter (fun r => r.base.element_name == name)

def create_summary_by_element (recs : List DerivedRecord) : List SummaryRow :=
  if recs.isEmpty then []
  else ((recs.map (fun r => r.base.element_name)).dedup).map
    (fun n => summaryRow n (groupOf recs n))

/-! ### Reference definitions used to state the claims

`headerInfoAt`/`ctxAfter` spell out, independently of the scanning
state, which lines of a block are accepted feature-header lines and
what the nearest preceding one before a given position captures: the
full element pattern is accepted at any position, the simple fallback
pattern only at position 0 (where no context can have been set yet), and
the nearest preceding accepted header of a prefix is the last accepted
header line in it. -/

def headerInfoAt (idx : ℕ) (l : Line) : Option ElementInfo :=
  match matchElementFull l with
  | some i => some i
  | none => if idx = 0 then matchElementSimple l else none

def ctxAfterAux (idx : ℕ) (acc : Option ElementInfo) :
    List Line → Option ElementInfo
  | [] => acc
  | l :: rest =>
    ctxAfterAux (idx + 1)
      (match headerInfoAt idx l with | some i => some i | none => acc) rest

/-- The capture of the nearest preceding accepted feature-header line of
a block prefix (`none` if the prefix has no accepted header). -/
def ctxAfter (pre : List Line) : Option ElementInfo := ctxAfterAux 0 none pre

/-! ### Concrete inputs used by witnesses and counterexamples -/

/-- The spec's §8 scenario block. -/
def sampleLines : List Line :=
  [("TAG1 点(最小二乗法) 点数(4)").toList,
   ("S= 0.001 Min=(1) -0.01 Max=(2) 0.01 形状= 0.002").toList,
   ("X-値_1 X 1.000 1.000 0.020 -0.020 0.000").toList]

def sampleBase : BaseRecord :=
  { element_name := ("TAG1").toList
    measurement_type := .point
    point_count := 4
    side := .na
    stats := some ⟨0.001, 1, -0.01, 2, 0.01, 0.002⟩
    coordinate_name := ("X-値_1").toList
    coordinate_type := .X
    measured_value := 1
    expected_value := 1
    upper_tolerance := 0.02
    lower_tolerance := -0.02
    calculated_deviation := 0
    histogram := [] }

def sampleRecord : DerivedRecord := deriveRecord sampleBase

/-- Two full header lines in one block, then a coordinate line: the
input refuting C2's first-match-wins reading. -/
def twoHeaderLines : List Line :=
  [("A 点 点数(1)").toList, ("B 点 点数(2)").toList,
   ("1 X 1 1 1 1 1").toList]

/-- A coordinate line whose third token `1.2.3` matches the numeric
token class but is not a valid float: the input on which the source
raises `ValueError`. -/
def malformedTokenLines : List Line :=
  [("A 点 点数(2)").toList, ("1 X 1.2.3 0 0 0 0").toList]

/-- XY stream: accepted tag, its X line, a rejected header line, then a
Y line — the input refuting C8's abandoned-element reading. -/
def rejectedHeaderLines : List Line :=
  [("円1 点").toList, ("X 1.5").toList, ("ZZZ 点").toList,
   ("Y 2.5").toList]

/-- XY stream with out-of-order suffixes and a negative coordinate. -/
def xyDemoLines : List Line :=
  [("円10 点").toList, ("X 1").toList, ("Y 2").toList,
   ("ｄ-7 点").toList, ("X 6").toList, ("Y 8").toList,
   ("円2 点").toList, ("X 3").toList, ("Y -4").toList]

/-- XY stream: two accepted tag lines in a row, then X and Y lines —
the first tag must yield no record. -/
def interruptedTagLines : List Line :=
  [("円1 点").toList, ("円2 点").toList, ("X 1").toList,
   ("Y 2").toList]

def demoBase (dev : ℚ) : BaseRecord :=
  { element_name := ("F1").toList
    measurement_type := .point
    point_count := 4
    side := .na
    stats := none
    coordinate_name := ("1").toList
    coordinate_type := .X
    measured_value := 1
    expected_value := 1
    upper_tolerance := 0.02
    lower_tolerance := -0.02
    calculated_deviation := dev
    histogram := [] }

/-- Four records in one group, three of them within tolerance. -/
def fourRecDemo : List DerivedRecord :=
  [deriveRecord (demoBase 0), deriveRecord (demoBase 0.01),
   deriveRecord (demoBase (-0.01)), deriveRecord (demoBase 0.1)]

/-- The completed records of the `xyDemoLines` run, in scan order. -/
def xyDemoRecs : List XYRec :=
  [⟨("円10").toList, 1, 2⟩, ⟨("ｄ-7").toList, 6, 8⟩, ⟨("円2").toList, 3, 4⟩]

/-- The reshaped output of the `xyDemoLines` run: circle family first,
sorted by suffix (`円2` before `円10`), then the d-group family, two
rows per record (X then Y). -/
def xyDemoRows : List XYRow :=
  [⟨("円2").toList, .X, 3⟩, ⟨("円2").toList, .Y, 4⟩,
   ⟨("円10").toList, .X, 1⟩, ⟨("円10").toList, .Y, 2⟩,
   ⟨("ｄ-7").toList, .X, 6⟩, ⟨("ｄ-7").toList, .Y, 8⟩]

/-! ### Shared lemmas -/

theorem statusOf_some_ne_na (b : Bool) : statusOf (some b) ≠ .NA := by
  cases b <;> simp [statusOf]

theorem statusOf_pass_iff (b : Bool) : statusOf (some b) = .PASS ↔ b = true := by
  cases b <;> simp [statusOf]

theorem parse_ok_elim {lines : List Line} {out : List DerivedRecord}
    (h : parse_lines_to_dataframe lines = .ok out) :
    ∃ base, processDatasets (datasets lines) = .ok base ∧
      out = base.map deriveRecord := by
  unfold parse_lines_to_dataframe at h
  split at h
  · exact absurd h (by simp)
  · rename_i base hbase
    exact ⟨base, hbase, by injection h with h'; exact h'.symm⟩

theorem mem_parse_derive {lines : List Line} {out : List DerivedRecord}
    {dr : DerivedRecord} (h : parse_lines_to_dataframe lines = .ok out)
    (hdr : dr ∈ out) : ∃ b, dr = deriveRecord b := by
  obtain ⟨base, _, rfl⟩ := parse_ok_elim h
  obtain ⟨b, _, rfl⟩ := List.mem_map.mp hdr
  exact ⟨b, rfl⟩

theorem parse_sample_eq :
    parse_lines_to_dataframe sampleLines = .ok [sampleRecord] := by
  with_unfolding_all rfl

theorem roundHalfEven_intCast (z : ℤ) : roundHalfEven (z : ℚ) = z := by
  unfold roundHalfEven
  norm_num

theorem roundTo_natCast (d : ℕ) (n : ℕ) : roundTo d ((n : ℕ) : ℚ) = n := by
  unfold roundTo
  have h : ((n : ℚ) * 10 ^ d) = ((n * 10 ^ d : ℤ) : ℚ) := by push_cast; ring
  rw [h, roundHalfEven_intCast]
  push_cast
  field_simp

/-! ### Claims -/

/-- C1: for every record produced by `parse_lines_to_dataframe`, the
derived status is the unknown marker (`'N/A'`) exactly when any of
deviation, upper tolerance, lower tolerance is missing (first
conjunct: the derivation of `status` from the three inputs, as the
source's row lambda computes it on arbitrary possibly-missing cells);
records actually produced always carry all three values, so their
status is never the unknown marker and is `PASS` iff
`lower ≤ deviation ≤ upper` (both ends inclusive), `FAIL` otherwise
(second conjunct). -/
theorem status_unknown_iff_missing :
    (∀ lower upper dev : Option ℚ,
      (statusOf (within_tolerance lower upper dev) = .NA ↔
        dev = none ∨ upper = none ∨ lower = none) ∧
      (∀ lo up d, lower = some lo → upper = some up → dev = some d →
        (statusOf (within_tolerance lower upper dev) = .PASS ↔
          lo ≤ d ∧ d ≤ up))) ∧
    (∀ lines out, parse_lines_to_dataframe lines = .ok out → ∀ dr ∈ out,
      dr.status ≠ .NA ∧
      (dr.status = .PASS ↔
        dr.base.lower_tolerance ≤ dr.base.calculated_deviation ∧
        dr.base.calculated_deviation ≤ dr.base.upper_tolerance)) := by
  constructor
  · intro lower upper dev
    constructor
    · rcases lower with _ | lo <;> rcases upper with _ | up <;>
        rcases dev with _ | d <;>
        simp [within_tolerance, statusOf, statusOf_some_ne_na]
      exact statusOf_some_ne_na _
    · intro lo up d hl hu hd
      subst hl; subst hu; subst hd
      simp only [within_tolerance]
      rw [statusOf_pass_iff]
      simp
  · intro lines out h dr hdr
    obtain ⟨b, rfl⟩ := mem_parse_derive h hdr
    refine ⟨statusOf_some_ne_na _, ?_⟩
    show statusOf (some _) = .PASS ↔ _
    rw [statusOf_pass_iff]
    simp [deriveRecord]

/-- Witness for C1 at the spec's §8 scenario input. -/
theorem status_unknown_iff_missing_witness :
    sampleRecord.status ≠ .NA ∧
    (sampleRecord.status = .PASS ↔
      sampleRecord.base.lower_tolerance ≤ sampleRecord.base.calculated_deviation ∧
      sampleRecord.base.calculated_deviation ≤ sampleRecord.base.upper_tolerance) :=
  status_unknown_iff_missing.2 sampleLines [sampleRecord] parse_sample_eq
    sampleRecord (List.mem_singleton.mpr rfl)

/-- C2 counterexample: in the block `["A 点 点数(1)", "B 点 点数(2)",
"1 X 1 1 1 1 1"]` both of the first two lines match the feature-header
pattern (the first captures tag `A`), yet the sole emitted record
carries tag `B` — the context was overwritten by the later header line,
so the claimed first-match-wins invariant is false on this input. -/
theorem header_overwrite_counterexample :
    matchElementFull (("A 点 点数(1)").toList) =
      some ⟨("A").toList, .point, 1, .na⟩ ∧
    matchElementFull (("B 点 点数(2)").toList) =
      some ⟨("B").toList, .point, 2, .na⟩ ∧
    datasets twoHeaderLines = [twoHeaderLines] ∧
    (parse_lines_to_dataframe twoHeaderLines).map
      (fun l => l.map (fun r => r.base.element_name)) = .ok [("B").toList] ∧
    ("B").toList ≠ ("A").toList := by
  refine ⟨?_, ?_, ?_, ?_, by decide⟩ <;> with_unfolding_all rfl

/-- C2 amended: within one block, the FeatureContext is NOT fixed by the
first matching header line; every line matching the full feature-header
pattern overwrites the context unconditionally (last match wins), so
records carry the tag/type/count/side captured by the most recent
preceding header line. -/
theorem header_overwrites (st : BlockState) (idx : ℕ) (l : Line)
    (info : ElementInfo) (h : matchElementFull l = some info) :
    blockStep st idx l = .ok ({ st with element := some info }, none) := by
  unfold blockStep
  rw [h]

/-- Witness for the amended C2: a later header line overwrites an
already-set context. -/
theorem header_overwrites_witness :
    blockStep ⟨some ⟨("A").toList, .point, 1, .na⟩, none⟩ 1
      (("B 点 点数(2)").toList) =
      .ok (⟨some ⟨("B").toList, .point, 2, .na⟩, none⟩, none) :=
  header_overwrites ⟨some ⟨("A").toList, .point, 1, .na⟩, none⟩ 1
    (("B 点 点数(2)").toList) ⟨("B").toList, .point, 2, .na⟩
    (by with_unfolding_all rfl)

/-- C4 counterexample: the line `1 X 1.2.3 0 0 0 0` does match the
coordinate pattern as a whole — the captured third group is the token
`1.2.3`, drawn from the permissive class `[-\d.]+` — but `float('1.2.3')`
raises `ValueError`, so the call on `["A 点 点数(2)", "1 X 1.2.3 0 0 0 0"]`
raises (modelled `.error`) instead of returning a (possibly smaller)
record collection.  The claim that a malformed numeric token makes the
pattern fail as a whole, with the line skipped and the parse never
raising, is false on this input. -/
theorem malformed_token_counterexample :
    matchNamedCoord (("1 X 1.2.3 0 0 0 0").toList) =
      some ⟨("1").toList, .X, ("1.2.3").toList, ("0").toList, ("0").toList,
            ("0").toList, ("0").toList, []⟩ ∧
    pyFloat (("1.2.3").toList) = none ∧
    parse_lines_to_dataframe malformedTokenLines = .error () := by
  refine ⟨?_, ?_, ?_⟩ <;> with_unfolding_all rfl

/-- C4 amended: the parse always terminates, and a line matching none of
the four patterns (so in particular a line whose malformed numeric token
breaks the pattern match itself) is skipped with no partial record, no
state change, and no error; but a malformed token that the permissive
numeric class `[-\d.]+` still matches (such as `1.2.3`) does not make
the pattern fail — the `float(...)` conversion raises `ValueError` and
the call halts, so `parse_lines_to_dataframe` is not exception-free on
every input (see the counterexample). -/
theorem unmatched_line_skipped (st : BlockState) (idx : ℕ) (l : Line)
    (h1 : matchElementFull l = none) (h2 : matchElementSimple l = none)
    (h3 : findStats l = none) (h4 : matchNamedCoord l = none) :
    blockStep st idx l = .ok (st, none) := by
  have hsc : statsCoordStep st l = .ok (st, none) := by
    unfold statsCoordStep
    rw [h3]
    cases st.element with
    | none => rfl
    | some info => rw [h4]
  unfold blockStep
  rw [h1, h2]
  by_cases hc : (st.element.isNone && idx == 0) = true
  · rw [if_pos hc]; exact hsc
  · rw [if_neg hc]; exact hsc

/-- Witness for the amended C4: an unrecognized line is skipped without
error and without touching the context. -/
theorem unmatched_line_skipped_witness :
    blockStep ⟨some ⟨("A").toList, .point, 1, .na⟩, none⟩ 3
      (("unrecognized junk line").toList) =
      .ok (⟨some ⟨("A").toList, .point, 1, .na⟩, none⟩, none) :=
  unmatched_line_skipped ⟨some ⟨("A").toList, .point, 1, .na⟩, none⟩ 3
    (("unrecognized junk line").toList) (by with_unfolding_all rfl)
    (by with_unfolding_all rfl) (by with_unfolding_all rfl)
    (by with_unfolding_all rfl)

/-- C5: for every record produced by `parse_lines_to_dataframe`, the
tolerance range is upper minus lower tolerance, and the tolerance
utilization is 0 when that range is exactly zero and otherwise
`|deviation| / (range/2) * 100` rounded (half-even) to 2 decimal
places; in particular upper = 0.02, lower = -0.02, deviation = 0.01
gives range 0.04 and utilization 50.00. -/
theorem tolerance_utilization_spec :
    (∀ lines out, parse_lines_to_dataframe lines = .ok out → ∀ dr ∈ out,
      dr.tolerance_range = dr.base.upper_tolerance - dr.base.lower_tolerance ∧
      dr.tolerance_util =
        if dr.tolerance_range = 0 then 0
        else roundTo 2
          (|dr.base.calculated_deviation| / (dr.tolerance_range / 2) * 100)) ∧
    ((0.02 : ℚ) - (-0.02 : ℚ) = 0.04 ∧ tolerance_utilization 0.04 0.01 = 50) := by
  constructor
  · intro lines out h dr hdr
    obtain ⟨b, rfl⟩ := mem_parse_derive h hdr
    refine ⟨rfl, ?_⟩
    show tolerance_utilization _ _ = _
    unfold tolerance_utilization
    by_cases hr : b.upper_tolerance - b.lower_tolerance = 0 <;>
      simp [deriveRecord, hr]
  · exact ⟨by with_unfolding_all rfl, by with_unfolding_all rfl⟩

/-- Witness for C5 at the spec's §8 scenario input (range 0.04,
deviation 0, utilization 0). -/
theorem tolerance_utilization_spec_witness :
    sampleRecord.tolerance_range =
      sampleRecord.base.upper_tolerance - sampleRecord.base.lower_tolerance ∧
    sampleRecord.tolerance_util =
      if sampleRecord.tolerance_range = 0 then 0
      else roundTo 2 (|sampleRecord.base.calculated_deviation| /
        (sampleRecord.tolerance_range / 2) * 100) :=
  tolerance_utilization_spec.1 sampleLines [sampleRecord] parse_sample_eq
    sampleRecord (List.mem_singleton.mpr rfl)

/-- C6: the XY extractor's acceptance filter accepts a captured tag iff
the entire tag is the circle prefix `円` followed by one or more digits,
or the d-group prefix `ｄ-` followed by one or more digits, with no
other characters; in particular `円12` is accepted and `円12A` is
rejected. -/
theorem accept_filter_spec :
    (∀ tag : Line, acceptTag tag = true ↔
      ((∃ ds, tag = '円' :: ds ∧ ds ≠ [] ∧ ∀ c ∈ ds, isPyDigit c) ∨
       (∃ ds, tag = 'ｄ' :: '-' :: ds ∧ ds ≠ [] ∧ ∀ c ∈ ds, isPyDigit c))) ∧
    acceptTag (("円12").toList) = true ∧
    acceptTag (("円12A").toList) = false := by
  refine ⟨?_, rfl, rfl⟩
  intro tag
  constructor
  · intro h
    simp only [acceptTag, Bool.or_eq_true] at h
    rcases h with hc | hd
    · left
      rcases tag with _ | ⟨c, rest⟩
      · exact absurd hc (by simp [isCircleTag])
      · simp only [isCircleTag, Bool.and_eq_true, decide_eq_true_eq,
          Bool.not_eq_true'] at hc
        exact ⟨rest, by rw [hc.1.1], by simpa using hc.1.2,
          by simpa [List.all_eq_true] using hc.2⟩
    · right
      rcases tag with _ | ⟨c1, _ | ⟨c2, rest⟩⟩
      · exact absurd hd (by simp [isDTag])
      · exact absurd hd (by simp [isDTag])
      · simp only [isDTag, Bool.and_eq_true, decide_eq_true_eq,
          Bool.not_eq_true'] at hd
        exact ⟨rest, by rw [hd.1.1.1, hd.1.1.2], by simpa using hd.1.2,
          by simpa [List.all_eq_true] using hd.2⟩
  · intro h
    simp only [acceptTag, Bool.or_eq_true]
    rcases h with ⟨ds, rfl, hne, hdig⟩ | ⟨ds, rfl, hne, hdig⟩
    · left
      rcases ds with _ | ⟨d, ds'⟩
      · exact absurd rfl hne
      · simpa [isCircleTag, List.all_eq_true] using hdig
    · right
      rcases ds with _ | ⟨d, ds'⟩
      · exact absurd rfl hne
      · simpa [isDTag, List.all_eq_true] using hdig

/-- Witness for C6: instantiating the characterization at the accepted
tag `円12`. -/
theorem accept_filter_spec_witness :
    (∃ ds, ("円12").toList = '円' :: ds ∧ ds ≠ [] ∧ ∀ c ∈ ds, isPyDigit c) ∨
    (∃ ds, ("円12").toList = 'ｄ' :: '-' :: ds ∧ ds ≠ [] ∧ ∀ c ∈ ds, isPyDigit c) :=
  (accept_filter_spec.1 (("円12").toList)).mp accept_filter_spec.2.1

/-- C7: whenever the XY scanner reads a line whose header match passes
the acceptance filter, it discards any in-progress partial element
without emitting a record and restarts in the awaiting-X state, carrying
the new tag (first conjunct, for every scanner state); consequently an
accepted tag line followed directly by another accepted tag line yields
zero records for the first tag (second conjunct: on
`["円1 点", "円2 点", "X 1", "Y 2"]` only `円2` produces a record). -/
theorem accepted_tag_resets :
    (∀ (s : XYState) (acc : List XYRec) (l : Line) (info : ElementInfo),
      matchElementSimple l = some info → acceptTag info.element_name = true →
      xyStep s acc l = .ok (⟨some info.element_name, true, false, none⟩, acc)) ∧
    xyRecords interruptedTagLines = .ok [⟨("円2").toList, 1, 2⟩] := by
  constructor
  · intro s acc l info h1 h2
    unfold xyStep
    rw [h1]
    simp [h2]
  · with_unfolding_all rfl

/-- Witness for C7: an accepted tag read while `円1` is awaiting its Y
coordinate resets the machine, dropping the partial element. -/
theorem accepted_tag_resets_witness :
    xyStep ⟨some (("円1").toList), false, true, some 1⟩ []
      (("円2 点").toList) =
      .ok (⟨some (("円2").toList), true, false, none⟩, []) :=
  accepted_tag_resets.1 ⟨some (("円1").toList), false, true, some 1⟩ []
    (("円2 点").toList) ⟨("円2").toList, .point, 0, .na⟩
    (by with_unfolding_all rfl) (by with_unfolding_all rfl)

/-- C8 counterexample: with `円1` in progress awaiting Y (X already
captured as 1.5), the line `ZZZ 点` matches the header pattern, its tag
fails the filter, and the state is left unchanged — but the in-progress
element is NOT abandoned: the following `Y 2.5` line completes it, and
the full run on `["円1 点", "X 1.5", "ZZZ 点", "Y 2.5"]` emits the
record for `円1`, contradicting the claim that it contributes no
record. -/
theorem rejected_header_counterexample :
    matchElementSimple (("ZZZ 点").toList) =
      some ⟨("ZZZ").toList, .point, 0, .na⟩ ∧
    acceptTag (("ZZZ").toList) = false ∧
    xyStep ⟨some (("円1").toList), false, true, some 1.5⟩ []
      (("ZZZ 点").toList) =
      .ok (⟨some (("円1").toList), false, true, some 1.5⟩, []) ∧
    xyStep ⟨some (("円1").toList), false, true, some 1.5⟩ []
      (("Y 2.5").toList) =
      .ok (.idle, [⟨("円1").toList, 1.5, 2.5⟩]) ∧
    xyRecords rejectedHeaderLines = .ok [⟨("円1").toList, 1.5, 2.5⟩] := by
  refine ⟨?_, ?_, ?_, ?_, ?_⟩ <;> with_unfolding_all rfl

/-- C8 amended: a line matching the generic feature-header pattern whose
captured tag fails the acceptance filter is ignored and the state
machine's state (and output) is unchanged; an element already in
progress awaiting Y at that point is NOT abandoned — it stays in
progress and a later Y line still completes it and emits its record
(see the counterexample run). -/
theorem rejected_header_ignored (s : XYState) (acc : List XYRec) (l : Line)
    (info : ElementInfo) (h1 : matchElementSimple l = some info)
    (h2 : acceptTag info.element_name = false) :
    xyStep s acc l = .ok (s, acc) := by
  unfold xyStep
  rw [h1]
  simp [h2]

/-- Witness for the amended C8: the rejected header line `ZZZ 点` leaves
the awaiting-Y state untouched. -/
theorem rejected_header_ignored_witness :
    xyStep ⟨some (("円9").toList), false, true, some 3⟩ []
      (("ZZZ 点").toList) =
      .ok (⟨some (("円9").toList), false, true, some 3⟩, []) :=
  rejected_header_ignored ⟨some (("円9").toList), false, true, some 3⟩ []
    (("ZZZ 点").toList) ⟨("ZZZ").toList, .point, 0, .na⟩
    (by with_unfolding_all rfl) (by with_unfolding_all rfl)

theorem recordOfRaw_fields {info : ElementInfo} {st : Option StatsInfo}
    {raw : CoordRaw} {r : BaseRecord} (h : recordOfRaw info st raw = .ok r) :
    r.element_name = info.element_name ∧ r.coordinate_name = raw.cname := by
  unfold recordOfRaw at h
  split at h
  · cases h; exact ⟨rfl, rfl⟩
  · simp at h

theorem statsCoordStep_emit {st : BlockState} {l : Line} {st' : BlockState}
    {r : BaseRecord} (h : statsCoordStep st l = .ok (st', some r)) :
    ∃ info raw, st.element = some info ∧ matchNamedCoord l = some raw ∧
      recordOfRaw info st.stats raw = .ok r ∧ st' = st := by
  unfold statsCoordStep at h
  split at h
  · split at h
    · simp at h
    · simp at h
  · split at h
    · simp at h
    · rename_i info hinfo
      split at h
      · simp at h
      · rename_i raw hraw
        split at h
        · rename_i r0 hr0
          simp only [Except.ok.injEq, Prod.mk.injEq, Option.some.injEq] at h
          obtain ⟨rfl, rfl⟩ := h
          exact ⟨info, raw, hinfo, hraw, hr0, rfl⟩
        · simp at h

theorem statsCoordStep_element {st : BlockState} {l : Line} {st' : BlockState}
    {r? : Option BaseRecord} (h : statsCoordStep st l = .ok (st', r?)) :
    st'.element = st.element := by
  unfold statsCoordStep at h
  split at h
  · split at h
    · simp only [Except.ok.injEq, Prod.mk.injEq] at h
      obtain ⟨rfl, rfl⟩ := h
      rfl
    · simp at h
  · split at h
    · simp only [Except.ok.injEq, Prod.mk.injEq] at h
      obtain ⟨rfl, rfl⟩ := h
      rfl
    · split at h
      · simp only [Except.ok.injEq, Prod.mk.injEq] at h
        obtain ⟨rfl, rfl⟩ := h
        rfl
      · split at h
        · simp only [Except.ok.injEq, Prod.mk.injEq] at h
          obtain ⟨rfl, rfl⟩ := h
          rfl
        · simp at h

theorem blockStep_emit {st : BlockState} {idx : ℕ} {l : Line}
    {st' : BlockState} {r : BaseRecord}
    (h : blockStep st idx l = .ok (st', some r)) :
    ∃ info raw, st.element = some info ∧ matchNamedCoord l = some raw ∧
      recordOfRaw info st.stats raw = .ok r ∧ st' = st := by
  unfold blockStep at h
  split at h
  · simp at h
  · split at h
    · split at h
      · simp at h
      · exact statsCoordStep_emit h
    · exact statsCoordStep_emit h

theorem blockStep_element {st : BlockState} {idx : ℕ} {l : Line}
    {st' : BlockState} {r? : Option BaseRecord}
    (h0 : idx = 0 → st.element = none)
    (h : blockStep st idx l = .ok (st', r?)) :
    st'.element =
      match headerInfoAt idx l with
      | some i => some i
      | none => st.element := by
  unfold blockStep at h
  unfold headerInfoAt
  cases hfull : matchElementFull l with
  | some info =>
    rw [hfull] at h
    simp only [Except.ok.injEq, Prod.mk.injEq] at h
    obtain ⟨rfl, rfl⟩ := h
    rfl
  | none =>
    rw [hfull] at h
    by_cases hidx : idx = 0
    · have hel : st.element = none := h0 hidx
      rw [if_pos (by simp [hel, hidx])] at h
      cases hsimp : matchElementSimple l with
      | some info =>
        rw [hsimp] at h
        simp only [Except.ok.injEq, Prod.mk.injEq] at h
        obtain ⟨rfl, rfl⟩ := h
        simp [hidx, hsimp]
      | none =>
        rw [hsimp] at h
        rw [statsCoordStep_element h]
        simp [hidx, hsimp]
    · have hcond : (st.element.isNone && idx == 0) = false := by
        simp [hidx]
      rw [if_neg (by simp [hcond, hidx])] at h
      rw [statsCoordStep_element h]
      simp [hidx]

theorem processDatasets_mem {ds : List (List Line)} {recs : List BaseRecord}
    {r : BaseRecord} (h : processDatasets ds = .ok recs) (hr : r ∈ recs) :
    ∃ d ∈ ds, ∃ rs, processBlock d = .ok rs ∧ r ∈ rs := by
  induction ds generalizing recs with
  | nil =>
    unfold processDatasets at h
    injection h with h'
    subst h'
    simp at hr
  | cons d ds ih =>
    unfold processDatasets at h
    split at h
    · exact absurd h (by simp)
    · rename_i rs hrs
      split at h
      · exact absurd h (by simp)
      · rename_i rest hrest
        injection h with h'
        subst h'
        rcases List.mem_append.mp hr with h1 | h2
        · exact ⟨d, List.mem_cons_self d ds, rs, hrs, h1⟩
        · obtain ⟨d', hd', rs', hrs', hr'⟩ := ih hrest h2
          exact ⟨d', List.mem_cons_of_mem _ hd', rs', hrs', hr'⟩

/-- The per-block scan invariant: every record produced by scanning a
block from line index `idx` in state `st` carries the element captures
of the nearest preceding accepted header line (relative to the context
`st.element` holds for the scanned suffix), and its coordinate captures
come from the line at its own emission position. -/
theorem processBlockAux_nearest (block : List Line) :
    ∀ (st : BlockState) (idx : ℕ) (recs : List BaseRecord),
      (idx = 0 → st.element = none) →
      processBlockAux st idx block = .ok recs →
      ∀ r ∈ recs, ∃ j, ∃ hj : j < block.length, ∃ info raw,
        ctxAfterAux idx st.element (block.take j) = some info ∧
        r.element_name = info.element_name ∧
        matchNamedCoord (block.get ⟨j, hj⟩) = some raw ∧
        r.coordinate_name = raw.cname := by
  induction block with
  | nil =>
    intro st idx recs _ h r hr
    unfold processBlockAux at h
    injection h with h'
    subst h'
    simp at hr
  | cons l rest ih =>
    intro st idx recs h0 h r hr
    unfold processBlockAux at h
    cases hstep : blockStep st idx l with
    | error e =>
      rw [hstep] at h
      exact absurd h (by simp)
    | ok p =>
      obtain ⟨st', r?⟩ := p
      rw [hstep] at h
      have h' : (match processBlockAux st' (idx + 1) rest with
        | Except.error e => (Except.error e : Except Unit (List BaseRecord))
        | Except.ok rs => Except.ok (r?.toList ++ rs)) = Except.ok recs := h
      clear h
      cases hrest : processBlockAux st' (idx + 1) rest with
      | error e =>
        rw [hrest] at h'
        exact absurd h' (by simp)
      | ok rs =>
        rw [hrest] at h'
        have hrec : r?.toList ++ rs = recs := by
          injection h'
        subst hrec
        rcases List.mem_append.mp hr with h1 | h2
        · cases r? with
          | none => simp at h1
          | some r0 =>
            obtain rfl : r = r0 := by simpa using h1
            obtain ⟨info, raw, hel, hnc, hrr, rfl⟩ := blockStep_emit hstep
            exact ⟨0, by simp, info, raw, hel, (recordOfRaw_fields hrr).1,
              hnc, (recordOfRaw_fields hrr).2⟩
        · have h0' : idx + 1 = 0 → st'.element = none :=
            fun hh => absurd hh (Nat.succ_ne_zero idx)
          obtain ⟨j, hj, info, raw, hctx, hname, hcoord, hcn⟩ :=
            ih st' (idx + 1) rs h0' hrest r h2
          have hel := blockStep_element h0 hstep
          refine ⟨j + 1, by simpa using Nat.succ_lt_succ hj, info, raw, ?_,
            hname, hcoord, hcn⟩
          show ctxAfterAux (idx + 1)
            (match headerInfoAt idx l with
             | some i => some i
             | none => st.element) (List.take j rest) = some info
          rw [← hel]
          exact hctx

/-- C3: every record emitted by `parse_lines_to_dataframe` comes from a
coordinate line at some position `j` of its block, and its element name
equals the tag captured by the nearest preceding accepted feature-header
line within that block (`ctxAfter` of the prefix before `j`: the last
accepted header — full pattern anywhere, simple fallback pattern at the
block's first line only — before the emitting line). -/
theorem element_name_nearest_header :
    ∀ lines out, parse_lines_to_dataframe lines = .ok out → ∀ dr ∈ out,
    ∃ block, block ∈ datasets lines ∧
      ∃ j, ∃ hj : j < block.length, ∃ info raw,
        ctxAfter (block.take j) = some info ∧
        dr.base.element_name = info.element_name ∧
        matchNamedCoord (block.get ⟨j, hj⟩) = some raw ∧
        dr.base.coordinate_name = raw.cname := by
  intro lines out h dr hdr
  obtain ⟨base, hbase, rfl⟩ := parse_ok_elim h
  obtain ⟨b, hb, rfl⟩ := List.mem_map.mp hdr
  obtain ⟨block, hblock, rs, hrs, hbrs⟩ := processDatasets_mem hbase hb
  obtain ⟨j, hj, info, raw, hctx, hname, hnc, hcn⟩ :=
    processBlockAux_nearest block .init 0 rs (fun _ => rfl) hrs b hbrs
  exact ⟨block, hblock, j, hj, info, raw, hctx, hname, hnc, hcn⟩

/-- Witness for C3 at the spec's §8 scenario input. -/
theorem element_name_nearest_header_witness :
    ∃ block, block ∈ datasets sampleLines ∧
      ∃ j, ∃ hj : j < block.length, ∃ info raw,
        ctxAfter (block.take j) = some info ∧
        sampleRecord.base.element_name = info.element_name ∧
        matchNamedCoord (block.get ⟨j, hj⟩) = some raw ∧
        sampleRecord.base.coordinate_name = raw.cname :=
  element_name_nearest_header sampleLines [sampleRecord] parse_sample_eq
    sampleRecord (List.mem_singleton.mpr rfl)

theorem xyYStep_invariant {s : XYState} {acc : List XYRec} {l : Line}
    {s' : XYState} {acc' : List XYRec}
    (h : xyYStep s acc l = .ok (s', acc'))
    (hacc : ∀ r ∈ acc, 0 ≤ r.x_coordinate ∧ 0 ≤ r.y_coordinate)
    (hx : ∀ x, s.current_x = some x → 0 ≤ x) :
    (∀ r ∈ acc', 0 ≤ r.x_coordinate ∧ 0 ≤ r.y_coordinate) ∧
    (∀ x, s'.current_x = some x → 0 ≤ x) := by
  unfold xyYStep at h
  split at h
  · rename_i name x hel hcx
    split at h
    · split at h
      · split at h
        · rename_i t ht y hy
          simp only [Except.ok.injEq, Prod.mk.injEq] at h
          obtain ⟨rfl, rfl⟩ := h
          refine ⟨?_, by simp [XYState.idle]⟩
          intro r hr
          rcases List.mem_append.mp hr with h1 | h2
          · exact hacc r h1
          · obtain rfl : r = ⟨name, x, |y|⟩ := by simpa using h2
            exact ⟨hx x hcx, abs_nonneg y⟩
        · simp at h
      · simp only [Except.ok.injEq, Prod.mk.injEq] at h
        obtain ⟨rfl, rfl⟩ := h
        exact ⟨hacc, hx⟩
    · simp only [Except.ok.injEq, Prod.mk.injEq] at h
      obtain ⟨rfl, rfl⟩ := h
      exact ⟨hacc, hx⟩
  · simp only [Except.ok.injEq, Prod.mk.injEq] at h
    obtain ⟨rfl, rfl⟩ := h
    exact ⟨hacc, hx⟩

theorem xyStep_invariant {s : XYState} {acc : List XYRec} {l : Line}
    {s' : XYState} {acc' : List XYRec}
    (h : xyStep s acc l = .ok (s', acc'))
    (hacc : ∀ r ∈ acc, 0 ≤ r.x_coordinate ∧ 0 ≤ r.y_coordinate)
    (hx : ∀ x, s.current_x = some x → 0 ≤ x) :
    (∀ r ∈ acc', 0 ≤ r.x_coordinate ∧ 0 ≤ r.y_coordinate) ∧
    (∀ x, s'.current_x = some x → 0 ≤ x) := by
  unfold xyStep at h
  split at h
  · split at h
    · simp only [Except.ok.injEq, Prod.mk.injEq] at h
      obtain ⟨rfl, rfl⟩ := h
      exact ⟨hacc, by simp⟩
    · simp only [Except.ok.injEq, Prod.mk.injEq] at h
      obtain ⟨rfl, rfl⟩ := h
      exact ⟨hacc, hx⟩
  · split at h
    · simp only [Except.ok.injEq, Prod.mk.injEq] at h
      obtain ⟨rfl, rfl⟩ := h
      exact ⟨hacc, hx⟩
    · split at h
      · split at h
        · split at h
          · rename_i t ht x hxv
            simp only [Except.ok.injEq, Prod.mk.injEq] at h
            obtain ⟨rfl, rfl⟩ := h
            refine ⟨hacc, ?_⟩
            intro x' hx'
            obtain rfl : |x| = x' := by simpa using hx'
            exact abs_nonneg x
          · simp at h
        · exact xyYStep_invariant h hacc hx
      · exact xyYStep_invariant h hacc hx

theorem xyRun_nonneg (ls : List Line) :
    ∀ (s : XYState) (acc : List XYRec) (recs : List XYRec),
      (∀ r ∈ acc, 0 ≤ r.x_coordinate ∧ 0 ≤ r.y_coordinate) →
      (∀ x, s.current_x = some x → 0 ≤ x) →
      xyRun s acc ls = .ok recs →
      ∀ r ∈ recs, 0 ≤ r.x_coordinate ∧ 0 ≤ r.y_coordinate := by
  induction ls with
  | nil =>
    intro s acc recs hacc _ h
    unfold xyRun at h
    injection h with h'
    subst h'
    exact hacc
  | cons l rest ih =>
    intro s acc recs hacc hx h
    unfold xyRun at h
    cases hstep : xyStep s acc l with
    | error e =>
      rw [hstep] at h
      exact absurd h (by simp)
    | ok p =>
      obtain ⟨s', acc'⟩ := p
      rw [hstep] at h
      have h' : xyRun s' acc' rest = .ok recs := h
      obtain ⟨hacc', hx'⟩ := xyStep_invariant hstep hacc hx
      exact ih s' acc' recs hacc' hx' h'

/-- C9: whenever `parse_xy_coordinates` returns, its output is the
circle-family records followed by the d-group-family records (each
family obtained by substring partition of the completed-record stream),
each family sorted ascending by the integer suffix key `extract_number`,
each record contributing exactly two consecutive rows sharing the tag —
coordinate type X first, then Y — whose `value` field holds the stored
(absolute) X and Y coordinates; every stored coordinate is nonnegative
(the scanner takes absolute values), `円2` sorts before `円10`, and a
tag without a numeric suffix gets key 0. -/
theorem xy_output_ordering :
    (∀ lines recs out, xyRecords lines = .ok recs →
      parse_xy_coordinates lines = .ok out →
      ∃ cs ds,
        out = cs.flatMap pairRows ++ ds.flatMap pairRows ∧
        cs.Perm (recs.filter (fun r => containsSub circleMark r.element_name)) ∧
        ds.Perm (recs.filter (fun r => containsSub dMark r.element_name)) ∧
        List.Sorted suffixLE cs ∧ List.Sorted suffixLE ds ∧
        (∀ r ∈ recs, 0 ≤ r.x_coordinate ∧ 0 ≤ r.y_coordinate)) ∧
    extract_number (("円2").toList) < extract_number (("円10").toList) ∧
    extract_number (("円A").toList) = 0 := by
  refine ⟨?_, by decide, by decide⟩
  intro lines recs out hrec hout
  unfold parse_xy_coordinates at hout
  rw [hrec] at hout
  have hout' : (List.insertionSort suffixLE
      (recs.filter (fun r => containsSub circleMark r.element_name))).flatMap
        pairRows ++
      (List.insertionSort suffixLE
        (recs.filter (fun r => containsSub dMark r.element_name))).flatMap
        pairRows = out := by
    injection hout
  refine ⟨List.insertionSort suffixLE
      (recs.filter (fun r => containsSub circleMark r.element_name)),
    List.insertionSort suffixLE
      (recs.filter (fun r => containsSub dMark r.element_name)),
    hout'.symm, List.perm_insertionSort _ _, List.perm_insertionSort _ _,
    List.sorted_insertionSort _ _, List.sorted_insertionSort _ _, ?_⟩
  exact xyRun_nonneg (cleanLinesXY lines) .idle [] recs (by simp)
    (by simp [XYState.idle]) hrec

/-- Witness for C9 at the out-of-order demo input (`円10` scanned before
`円2`, a negative Y value, one d-group record). -/
theorem xy_output_ordering_witness :
    ∃ cs ds,
      xyDemoRows = cs.flatMap pairRows ++ ds.flatMap pairRows ∧
      cs.Perm (xyDemoRecs.filter
        (fun r => containsSub circleMark r.element_name)) ∧
      ds.Perm (xyDemoRecs.filter
        (fun r => containsSub dMark r.element_name)) ∧
      List.Sorted suffixLE cs ∧ List.Sorted suffixLE ds ∧
      (∀ r ∈ xyDemoRecs, 0 ≤ r.x_coordinate ∧ 0 ≤ r.y_coordinate) :=
  xy_output_ordering.1 xyDemoLines xyDemoRecs xyDemoRows
    (by with_unfolding_all rfl) (by with_unfolding_all rfl)

theorem summaryRow_element_name (name : Line) (g : List DerivedRecord) :
    (summaryRow name g).element_name = name := by
  cases g <;> rfl

/-- C10: for every non-empty record collection, each summary row's pass
rate equals the row's group's count of true within-tolerance flags
(summed as 1 each) divided by the group's measured-value count (every
record of this extraction path carries a measured value, so that count
is the group size), times 100, rounded to 1 decimal place; a group of
4 records with 3 within tolerance yields pass rate 75.0 (second
conjunct). -/
theorem pass_rate_spec :
    (∀ recs row, recs ≠ [] → row ∈ create_summary_by_element recs →
      row.pass_rate = roundTo 1
        ((((groupOf recs row.element_name).countP
            (fun r => r.within_tol == some true) : ℕ) : ℚ) /
          (((groupOf recs row.element_name).length : ℕ) : ℚ) * 100)) ∧
    (create_summary_by_element fourRecDemo).map (fun r => r.pass_rate) =
      [75] := by
  constructor
  · intro recs row hne hrow
    unfold create_summary_by_element at hrow
    rw [if_neg (by simpa using hne)] at hrow
    obtain ⟨n, hn, rfl⟩ := List.mem_map.mp hrow
    rw [summaryRow_element_name]
    cases hg : groupOf recs n with
    | nil =>
      exfalso
      have hn' : n ∈ recs.map (fun r => r.base.element_name) :=
        List.mem_dedup.mp hn
      obtain ⟨r0, hr0, hr0n⟩ := List.mem_map.mp hn'
      have : r0 ∈ groupOf recs n :=
        List.mem_filter.mpr ⟨hr0, by simp [hr0n]⟩
      rw [hg] at this
      simp at this
    | cons g0 grest =>
      show roundTo 1
        (roundTo 4 ((((g0 :: grest).countP
            (fun r => r.within_tol == some true) : ℕ) : ℚ)) /
          roundTo 4 ((((g0 :: grest).length : ℕ) : ℚ)) * 100) = _
      rw [roundTo_natCast, roundTo_natCast]
  · with_unfolding_all rfl

/-- Witness for C10 at the 4-record demo group (3 of 4 within
tolerance): the pass rate formula instantiates to 75.0. -/
theorem pass_rate_spec_witness :
    (summaryRow (("F1").toList)
        (groupOf fourRecDemo (("F1").toList))).pass_rate =
      roundTo 1 ((((groupOf fourRecDemo (("F1").toList)).countP
          (fun r => r.within_tol == some true) : ℕ) : ℚ) /
        (((groupOf fourRecDemo (("F1").toList)).length : ℕ) : ℚ) * 100) :=
  pass_rate_spec.1 fourRecDemo
    (summaryRow (("F1").toList) (groupOf fourRecDemo (("F1").toList)))
    (by exact List.cons_ne_nil _ _)
    (by
      have h : create_summary_by_element fourRecDemo =
          [summaryRow (("F1").toList)
            (groupOf fourRecDemo (("F1").toList))] := by
        with_unfolding_all rfl
      rw [h]
      exact List.mem_singleton.mpr rfl)

end CMM
